import Mathlib

/-!
Shallow embedding of the caching facade in src/main.py and proofs of the
specified properties of its cache subsystem, key derivation and classify
orchestration.

Conventions of the embedding:
  - Python dicts are insertion ordered association lists with unique keys;
    the three dict operations the source uses (d.get, d[k] = v, del d[k])
    are dictGet, dictSet and dictDel below.
  - datetime.utcnow() is passed to each operation explicitly as an integer
    timestamp now; timedelta(seconds=ttl) is addition of the integer ttl.
    Every comparison in the source is order theoretic, so the tick
    granularity is irrelevant to the proved statements.
  - the asyncio.Lock serialises operations and has no further sequential
    content, so it does not appear in the state.
-/

namespace MLClassifier

/-- Model of one stored record: the two key Python dict with fields value and
expires_at that InMemoryCache.set builds (main.py lines 69 to 72). -/
structure CacheRecord (α : Type) where
  value : α
  expires_at : Int
  deriving DecidableEq

/-- Model of d.get(k) on a Python dict: the value at the first matching key,
or None when the key is absent. -/
def dictGet {α : Type} : List (String × α) → String → Option α
  | [], _ => none
  | (k0, v0) :: rest, k => if k0 = k then some v0 else dictGet rest k

/-- Model of d[k] = v on a Python dict: replace the value in place when the
key is present, otherwise append a fresh entry at the end. -/
def dictSet {α : Type} : List (String × α) → String → α → List (String × α)
  | [], k, v => [(k, v)]
  | (k0, v0) :: rest, k, v =>
    if k0 = k then (k0, v) :: rest else (k0, v0) :: dictSet rest k v

/-- Model of del d[k] for a present key: drop the first entry with that key.
InMemoryCache.get only deletes a key it has just looked up. -/
def dictDel {α : Type} : List (String × α) → String → List (String × α)
  | [], _ => []
  | (k0, v0) :: rest, k => if k0 = k then rest else (k0, v0) :: dictDel rest k

/-- Keys of a dict are pairwise distinct; every store reachable from the
constructor through set and get has this property. -/
def nodupKeys {α : Type} (st : List (String × α)) : Prop :=
  (st.map Prod.fst).Nodup

/-- Model of the InMemoryCache class (main.py lines 50 to 72): the _store
mapping from key to record. The value type is a parameter because the store
holds opaque dict payloads. -/
structure InMemoryCache (α : Type) where
  _store : List (String × CacheRecord α)
  deriving DecidableEq

/-- The store built by InMemoryCache.__init__: the empty mapping. -/
def InMemoryCache.empty {α : Type} : InMemoryCache α := ⟨[]⟩

/-- InMemoryCache.get (main.py lines 55 to 65) at explicit current time now,
the value of datetime.utcnow() during the call. The source tests if not rec,
which for a stored record dict (two keys, hence truthy) is true exactly when
rec is None. The expiry test is strict: expires_at < now deletes; at
expires_at = now the record is still served. The result pairs the Python
return value with the store as left after the call. -/
def InMemoryCache.get {α : Type} (c : InMemoryCache α) (key : String) (now : Int) :
    Option α × InMemoryCache α :=
  match dictGet c._store key with
  | none => (none, c)
  | some rec =>
    if rec.expires_at < now then (none, ⟨dictDel c._store key⟩)
    else (some rec.value, c)

/-- CACHE_TTL under its default configuration value of 3600 (main.py line 23). -/
def CACHE_TTL : Int := 3600

/-- InMemoryCache.set (main.py lines 67 to 72): unconditionally create or
overwrite the full record for key with expires_at = now + ttl. -/
def InMemoryCache.set {α : Type} (c : InMemoryCache α) (key : String) (value : α)
    (ttl : Int) (now : Int) : InMemoryCache α :=
  ⟨dictSet c._store key ⟨value, now + ttl⟩⟩

/-! Key derivation. make_key (main.py lines 78 to 79) is the namespace tag
classify: followed by the lowercase hex digest of the SHA-256 hash of the
UTF-8 encoding of the text. The hash is computed here over Nat with explicit
reduction modulo 2 ^ 32, following FIPS 180-4. -/

def M32 : Nat := 4294967296

/-- Rotate a 32 bit word right by n positions. -/
def rotr (n x : Nat) : Nat := ((x >>> n) ||| (x <<< (32 - n))) % M32

def bigSigma0 (x : Nat) : Nat := (rotr 2 x) ^^^ (rotr 13 x) ^^^ (rotr 22 x)

def bigSigma1 (x : Nat) : Nat := (rotr 6 x) ^^^ (rotr 11 x) ^^^ (rotr 25 x)

def smallSigma0 (x : Nat) : Nat := (rotr 7 x) ^^^ (rotr 18 x) ^^^ (x >>> 3)

def smallSigma1 (x : Nat) : Nat := (rotr 17 x) ^^^ (rotr 19 x) ^^^ (x >>> 10)

/-- Choice function of the compression loop; complement is xor with the all
ones 32 bit word. -/
def chFun (x y z : Nat) : Nat := (x &&& y) ^^^ ((x ^^^ 4294967295) &&& z)

def majFun (x y z : Nat) : Nat := (x &&& y) ^^^ (x &&& z) ^^^ (y &&& z)

/-- Round constants of SHA-256, written in decimal. -/
def sha256K : List Nat :=
  [1116352408, 1899447441, 3049323471, 3921009573, 961987163,
   1508970993, 2453635748, 2870763221, 3624381080, 310598401,
   607225278, 1426881987, 1925078388, 2162078206, 2614888103,
   3248222580, 3835390401, 4022224774, 264347078, 604807628,
   770255983, 1249150122, 1555081692, 1996064986, 2554220882,
   2821834349, 2952996808, 3210313671, 3336571891, 3584528711,
   113926993, 338241895, 666307205, 773529912, 1294757372,
   1396182291, 1695183700, 1986661051, 2177026350, 2456956037,
   2730485921, 2820302411, 3259730800, 3345764771, 3516065817,
   3600352804, 4094571909, 275423344, 430227734, 506948616,
   659060556, 883997877, 958139571, 1322822218, 1537002063,
   1747873779, 1955562222, 2024104815, 2227730452, 2361852424,
   2428436474, 2756734187, 3204031479, 3329325298]

/-- Initial hash state of SHA-256, written in decimal. -/
def sha256H0 : List Nat :=
  [1779033703, 3144134277, 1013904242, 2773480762, 1359893119,
   2600822924, 528734635, 1541459225]

/-- UTF-8 encoding of one character, the byte sequence text.encode() yields. -/
def utf8EncodeChar (c : Char) : List Nat :=
  let n := c.toNat
  if n < 128 then [n]
  else if n < 2048 then [192 + n / 64, 128 + n % 64]
  else if n < 65536 then [224 + n / 4096, 128 + (n / 64) % 64, 128 + n % 64]
  else [240 + n / 262144, 128 + (n / 4096) % 64, 128 + (n / 64) % 64, 128 + n % 64]

/-- Model of text.encode(): the UTF-8 bytes of the string. -/
def strBytes (s : String) : List Nat := (s.data.map utf8EncodeChar).flatten

/-- Big endian byte expansion of a number to a fixed width. -/
def beBytes : Nat → Nat → List Nat
  | 0, _ => []
  | len + 1, n => beBytes len (n / 256) ++ [n % 256]

/-- SHA-256 padding: append the 0x80 byte, zeros up to 56 mod 64, and the bit
length as eight big endian bytes. -/
def padMessage (msg : List Nat) : List Nat :=
  let L := msg.length
  msg ++ [128] ++ List.replicate ((119 - L % 64) % 64) 0 ++ beBytes 8 (8 * L)

/-- Group bytes four at a time into big endian 32 bit words. -/
def bytesToWords : List Nat → List Nat
  | b0 :: b1 :: b2 :: b3 :: rest =>
    (((b0 * 256 + b1) * 256 + b2) * 256 + b3) :: bytesToWords rest
  | _ => []

/-- Extend the sixteen block words with n further schedule words. -/
def extendW : Nat → List Nat → List Nat
  | 0, w => w
  | n + 1, w =>
    let i := w.length
    let nw := (w.getD (i - 16) 0 + smallSigma0 (w.getD (i - 15) 0) +
               w.getD (i - 7) 0 + smallSigma1 (w.getD (i - 2) 0)) % M32
    extendW n (w ++ [nw])

/-- One round of the SHA-256 compression function on the eight word state. -/
def compressRound : List Nat → Nat × Nat → List Nat
  | [a, b, c, d, e, f, g, h], (ki, wi) =>
    let t1 := (h + bigSigma1 e + chFun e f g + ki + wi) % M32
    let t2 := (bigSigma0 a + majFun a b c) % M32
    [(t1 + t2) % M32, a, b, c, (d + t1) % M32, e, f, g]
  | s, _ => s

/-- Compress one 64 byte block into the running hash state. -/
def compressBlock (hs : List Nat) (block : List Nat) : List Nat :=
  let w := extendW 48 (bytesToWords block)
  let final := (sha256K.zip w).foldl compressRound hs
  (hs.zip final).map (fun p => (p.1 + p.2) % M32)

/-- Split into 64 byte blocks; the fuel argument, set to the list length,
keeps the recursion structural so the kernel can evaluate it. -/
def toBlocksAux : Nat → List Nat → List (List Nat)
  | 0, _ => []
  | _, [] => []
  | fuel + 1, l => l.take 64 :: toBlocksAux fuel (l.drop 64)

/-- SHA-256 of a byte sequence as eight 32 bit words. -/
def sha256Words (msg : List Nat) : List Nat :=
  let padded := padMessage msg
  (toBlocksAux padded.length padded).foldl compressBlock sha256H0

/-- Lowercase hexadecimal digit characters. -/
def hexDigit (n : Nat) : Char :=
  match n with
  | 0 => Char.ofNat 48 | 1 => Char.ofNat 49 | 2 => Char.ofNat 50 | 3 => Char.ofNat 51
  | 4 => Char.ofNat 52 | 5 => Char.ofNat 53 | 6 => Char.ofNat 54 | 7 => Char.ofNat 55
  | 8 => Char.ofNat 56 | 9 => Char.ofNat 57 | 10 => Char.ofNat 97 | 11 => Char.ofNat 98
  | 12 => Char.ofNat 99 | 13 => Char.ofNat 100 | 14 => Char.ofNat 101 | _ => Char.ofNat 102

/-- Eight lowercase hex characters of one 32 bit word, high nibble first. -/
def wordToHex (w : Nat) : List Char :=
  [hexDigit (w / 268435456 % 16), hexDigit (w / 16777216 % 16), hexDigit (w / 1048576 % 16),
   hexDigit (w / 65536 % 16), hexDigit (w / 4096 % 16), hexDigit (w / 256 % 16),
   hexDigit (w / 16 % 16), hexDigit (w % 16)]

/-- Model of hashlib sha256 hexdigest on the words of the digest. -/
def hexdigest (ws : List Nat) : String := ⟨(ws.map wordToHex).flatten⟩

/-- The hex digest of the SHA-256 hash of the UTF-8 encoding of a string:
hashlib.sha256(text.encode()).hexdigest(). -/
def sha256hex (s : String) : String := hexdigest (sha256Words (strBytes s))

/-- make_key (main.py lines 78 to 79). -/
def make_key (text : String) : String := "classify:" ++ sha256hex text

/-! Reference and heap model for value aliasing (claim C2). A Python dict
value is a mutable heap object: what the store holds, and what get hands
back, is a reference; mutating the referenced payload through any alias
changes what every holder of the reference observes. -/

/-- An object reference, a Python object identity. -/
abbrev Ref := Nat

/-- A heap assigning to each reference its current payload. -/
def Heap (β : Type) := Ref → β

/-- Mutation of the object behind a reference: afterwards every alias of r
observes the new payload v. -/
def heapWrite {β : Type} (h : Heap β) (r : Ref) (v : β) : Heap β :=
  fun r2 => if r2 = r then v else h r2

/-! The classify orchestration (main.py lines 111 to 168). -/

/-- JSON values, the shape of the provider output the handler works with. -/
inductive Json where
  | null : Json
  | bool (b : Bool) : Json
  | num (q : Rat) : Json
  | str (s : String) : Json
  | arr (items : List Json) : Json
  | obj (fields : List (String × Json)) : Json

/-- Model of the Python str builtin on JSON decoded values, as normalize
applies it to item label. It always succeeds and is the identity on strings;
no claim depends on the rendering of the non string shapes, which is
abbreviated here. -/
def pyStr : Json → String
  | .null => "None"
  | .bool b => if b then "True" else "False"
  | .num q => toString q
  | .str s => s
  | .arr _ => "<list>"
  | .obj _ => "<dict>"

/-- Value of one ASCII decimal digit. -/
def digitVal (c : Char) : Option Nat :=
  if 48 ≤ c.toNat ∧ c.toNat ≤ 57 then some (c.toNat - 48) else none

/-- Value of a nonempty all digit string. -/
def parseDigits : List Char → Option Nat
  | [] => none
  | cs => cs.foldlM (fun acc c => (digitVal c).map (fun d => acc * 10 + d)) 0

/-- Model of the float builtin on a string: an optional sign, integer
digits, an optional dot and fraction digits. Strings outside this simple
decimal grammar fail, as float does on arbitrary text; no claim depends on
the exact set of accepted exotic spellings. -/
def parsePyFloat (s : String) : Option Rat :=
  let cs := s.data
  let signBody : Rat × List Char :=
    match cs with
    | c :: rest =>
      if c = Char.ofNat 45 then (-1, rest)
      else if c = Char.ofNat 43 then (1, rest)
      else (1, cs)
    | [] => (1, [])
  let body := signBody.2
  let intDigits := body.takeWhile Char.isDigit
  match body.dropWhile Char.isDigit with
  | [] => (parseDigits intDigits).map (fun n => signBody.1 * n)
  | c :: fracs =>
    if c = Char.ofNat 46 ∧ fracs.all Char.isDigit ∧ ¬ (intDigits = [] ∧ fracs = []) then
      some (signBody.1 * ((parseDigits intDigits).getD 0 +
        (((parseDigits fracs).getD 0 : Rat)) / (10 ^ fracs.length)))
    else none

/-- Model of the float builtin applied to a JSON decoded value, as normalize
applies it to item score: numbers and booleans convert, strings are parsed
as decimal text or fail, and None, lists and dicts raise TypeError. The
value none models the raised exception. -/
def pyFloat : Json → Option Rat
  | .num q => some q
  | .bool b => some (if b then 1 else 0)
  | .str s => parsePyFloat s
  | .null => none
  | .arr _ => none
  | .obj _ => none

/-- One normalized entry: the dict with a string label and a float score
that normalize builds (main.py lines 118 to 121). -/
structure LabelScore where
  label : String
  score : Rat
  deriving DecidableEq

/-- Treatment of one item of the raw list by the loop of normalize: items
that are not dicts carrying both the label and score keys are skipped (inner
none); for the rest the entry is built, unless float raises on the score
value, which the outer none models. -/
def normalizeItem (item : Json) : Option (Option LabelScore) :=
  match item with
  | .obj fields =>
    match dictGet fields "label", dictGet fields "score" with
    | some lv, some sv => (pyFloat sv).map (fun q => some ⟨pyStr lv, q⟩)
    | _, _ => some none
  | _ => some none

/-- Model of normalize (main.py lines 111 to 124). The result is none
exactly when the Python function raises; some l is a normal return of l.
For a non list input the source returns the empty list; for a list whose
first element is itself a list the inner list is taken; the final empty
check returns the same empty list either way. -/
def normalize (raw : Json) : Option (List LabelScore) :=
  match raw with
  | .arr items0 =>
    let items := match items0 with
      | .arr inner :: _ => inner
      | _ => items0
    items.foldlM (fun acc item => (normalizeItem item).map (fun r => acc ++ r.toList)) []
  | _ => some []

/-- PROVIDER under its default configuration value (main.py line 16). -/
def PROVIDER : String := "mock"

/-- Cached payload written by classify: the dict with the labels and
provider keys (main.py line 157). As a two key dict it is always truthy, so
the if cached test of the handler is a plain presence test. -/
structure CachedResult where
  labels : List LabelScore
  provider : String
  deriving DecidableEq

/-- Outcome of the awaited call_provider call, a parameter of the embedding:
a successful JSON body, or one of the three exception classes the handler
distinguishes (main.py lines 139 to 149). -/
inductive ProviderOutcome where
  | ok (raw : Json)
  | timeoutError
  | httpError
  | otherError

/-- Result of one classify request: an HTTPException with status and detail,
an exception escaping the handler (raised), or the success response with its
labels, from_cache flag and provider of the meta dict. -/
inductive ClassifyOutcome where
  | http (status : Nat) (detail : String)
  | raised
  | ok (labels : List LabelScore) (from_cache : Bool) (provider : String)
  deriving DecidableEq

/-- Continuation of classify after a cache miss (main.py lines 139 to 168),
over the store c1 as the miss left it: dispatch on the provider outcome,
normalize, reject an empty normalization with 502, then write the result
through cache.set; setFails true models set raising, which the source
catches, logs and ignores. -/
def classifyMiss (c1 : InMemoryCache CachedResult) (key : String) (now : Int)
    (provider : ProviderOutcome) (setFails : Bool) :
    ClassifyOutcome × InMemoryCache CachedResult :=
  match provider with
  | .timeoutError => (.http 502 "External service timeout", c1)
  | .httpError => (.http 502 "External ML service error", c1)
  | .otherError => (.http 500 "Unexpected ML provider error", c1)
  | .ok raw =>
    match normalize raw with
    | none => (.raised, c1)
    | some [] => (.http 502 "Invalid response format from ML provider", c1)
    | some (l :: ls) =>
      (.ok (l :: ls) false PROVIDER,
       if setFails then c1 else c1.set key ⟨l :: ls, PROVIDER⟩ CACHE_TTL now)

/-- Model of the classify handler (main.py lines 127 to 168) at explicit
current time now, with the provider call outcome and a possible cache write
failure as parameters: derive the key, consult the cache, answer a hit from
the cached record with from_cache true, and otherwise continue with
classifyMiss. Returns the outcome with the store after the request. -/
def classify (c : InMemoryCache CachedResult) (now : Int) (text : String)
    (provider : ProviderOutcome) (setFails : Bool) :
    ClassifyOutcome × InMemoryCache CachedResult :=
  match c.get (make_key text) now with
  | (some cached, c1) => (.ok cached.labels true cached.provider, c1)
  | (none, c1) => classifyMiss c1 (make_key text) now provider setFails

/-! Lemmas about the dict operations and the store. -/

theorem dictGet_dictSet_self {α : Type} (st : List (String × α)) (k : String) (v : α) :
    dictGet (dictSet st k v) k = some v := by
  induction st with
  | nil => simp [dictSet, dictGet]
  | cons hd tl ih =>
    obtain ⟨k0, v0⟩ := hd
    by_cases h : k0 = k
    · simp [dictSet, dictGet, h]
    · simp [dictSet, dictGet, h, ih]

theorem dictGet_dictSet_ne {α : Type} (st : List (String × α)) (k k2 : String) (v : α)
    (h : k ≠ k2) : dictGet (dictSet st k v) k2 = dictGet st k2 := by
  induction st with
  | nil => simp [dictSet, dictGet, h]
  | cons hd tl ih =>
    obtain ⟨k0, v0⟩ := hd
    by_cases h0 : k0 = k
    · subst h0
      simp [dictSet, dictGet, h]
    · simp [dictSet, dictGet, h0, ih]

theorem dictGet_dictDel_ne {α : Type} (st : List (String × α)) (k k2 : String)
    (h : k ≠ k2) : dictGet (dictDel st k) k2 = dictGet st k2 := by
  induction st with
  | nil => simp [dictDel]
  | cons hd tl ih =>
    obtain ⟨k0, v0⟩ := hd
    by_cases h0 : k0 = k
    · subst h0
      simp [dictDel, dictGet, h]
    · simp [dictDel, dictGet, h0, ih]

theorem dictGet_eq_none_of_not_mem {α : Type} (st : List (String × α)) (k : String)
    (h : k ∉ st.map Prod.fst) : dictGet st k = none := by
  induction st with
  | nil => simp [dictGet]
  | cons hd tl ih =>
    obtain ⟨k0, v0⟩ := hd
    simp only [List.map_cons, List.mem_cons] at h
    push_neg at h
    have hne : ¬ k0 = k := fun hk => h.1 hk.symm
    simp [dictGet, hne, ih h.2]

theorem dictGet_dictDel_self {α : Type} (st : List (String × α)) (k : String)
    (h : nodupKeys st) : dictGet (dictDel st k) k = none := by
  induction st with
  | nil => simp [dictDel, dictGet]
  | cons hd tl ih =>
    obtain ⟨k0, v0⟩ := hd
    simp only [nodupKeys, List.map_cons, List.nodup_cons] at h
    by_cases h0 : k0 = k
    · subst h0
      simp only [dictDel, if_pos rfl]
      exact dictGet_eq_none_of_not_mem tl k0 h.1
    · simp [dictDel, dictGet, h0, ih h.2]

theorem length_dictDel {α : Type} (st : List (String × α)) (k : String) (v : α)
    (h : dictGet st k = some v) : (dictDel st k).length + 1 = st.length := by
  induction st with
  | nil => simp [dictGet] at h
  | cons hd tl ih =>
    obtain ⟨k0, v0⟩ := hd
    by_cases h0 : k0 = k
    · simp [dictDel, h0]
    · simp only [dictGet, if_neg h0] at h
      simp [dictDel, h0, ih h]

theorem get_store_cases {α : Type} (c : InMemoryCache α) (key : String) (now : Int) :
    (c.get key now).2 = c ∨ (c.get key now).2 = ⟨dictDel c._store key⟩ := by
  unfold InMemoryCache.get
  cases dictGet c._store key with
  | none => exact Or.inl rfl
  | some r =>
    by_cases h : r.expires_at < now
    · simp [h]
    · simp [h]

theorem dictGet_get_state {α : Type} (c : InMemoryCache α) (key k : String) (now : Int)
    (r : CacheRecord α) (hnd : nodupKeys c._store)
    (h : dictGet ((c.get key now).2)._store k = some r) : dictGet c._store k = some r := by
  rcases get_store_cases c key now with he | he
  · rwa [he] at h
  · rw [he] at h
    by_cases hk : key = k
    · subst hk
      rw [dictGet_dictDel_self _ _ hnd] at h
      exact absurd h (by simp)
    · rwa [dictGet_dictDel_ne _ _ _ hk] at h

/-- The implementation of SHA-256 above reproduces the FIPS 180-4 one block
test vector for the string abc. -/
theorem sha256hex_abc :
    sha256hex "abc" = "ba7816bf8f01cfea414140de5dae2223b00361a396177a9cb410ff61f20015ad" := by
  decide

/-- The implementation also reproduces the empty message test vector. -/
theorem sha256hex_empty :
    sha256hex "" = "e3b0c44298fc1c149afbf4c8996fb92427ae41e4649b934ca495991b7852b855" := by
  decide

/-- Claim C1 fails at the expiry boundary: set with ttl 0 at time 0 stores
expires_at = 0, so at the time of an immediately following get at the same
instant expires_at ≤ now holds, yet the get returns the value and leaves the
mapping untouched, because the source tests expires_at < now strictly
(main.py line 61) rather than expires_at ≤ now. -/
theorem C1_counterexample :
    ((InMemoryCache.empty.set "k" (37 : Nat) 0 0).get "k" 0).1 = some 37 ∧
    ((InMemoryCache.empty.set "k" (37 : Nat) 0 0).get "k" 0).2 =
      InMemoryCache.empty.set "k" (37 : Nat) 0 0 := by
  constructor
  · decide
  · decide

/-- Claim C1 amended: a stored record is deleted and reported absent exactly
when expires_at < now strictly; consequently after set with ttl ≤ 0 every
get at any strictly later time is a miss, and after set with ttl < 0 even a
get at the same instant is a miss. Only at ttl = 0 with an unadvanced clock
is the record still served, the one point where the original claim fails. -/
theorem C1_strict_expiry {α : Type} :
    (∀ (c : InMemoryCache α) (k : String) (now : Int) (r : CacheRecord α),
        dictGet c._store k = some r → r.expires_at < now →
        c.get k now = (none, ⟨dictDel c._store k⟩)) ∧
    (∀ (c : InMemoryCache α) (k : String) (v : α) (ttl t t2 : Int),
        ttl ≤ 0 → t < t2 → ((c.set k v ttl t).get k t2).1 = none) ∧
    (∀ (c : InMemoryCache α) (k : String) (v : α) (ttl t : Int),
        ttl < 0 → ((c.set k v ttl t).get k t).1 = none) := by
  refine ⟨?_, ?_, ?_⟩
  · intro c k now r h hlt
    simp [InMemoryCache.get, h, hlt]
  · intro c k v ttl t t2 h1 h2
    have hlook := dictGet_dictSet_self c._store k (⟨v, t + ttl⟩ : CacheRecord α)
    simp only [InMemoryCache.get, InMemoryCache.set, hlook]
    rw [if_pos (show (⟨v, t + ttl⟩ : CacheRecord α).expires_at < t2 by simp only []; omega)]
  · intro c k v ttl t h1
    have hlook := dictGet_dictSet_self c._store k (⟨v, t + ttl⟩ : CacheRecord α)
    simp only [InMemoryCache.get, InMemoryCache.set, hlook]
    rw [if_pos (show (⟨v, t + ttl⟩ : CacheRecord α).expires_at < t by simp only []; omega)]

/-- Witness for C1_strict_expiry at concrete inputs: a record expired at 0
read at time 1 is deleted and absent; a ttl 0 record read one tick later is
absent; a negative ttl record is absent at once. -/
theorem C1_strict_expiry_witness :
    (InMemoryCache.empty.set "k" (5 : Nat) 0 0).get "k" 1 =
      (none, ⟨dictDel (InMemoryCache.empty.set "k" (5 : Nat) 0 0)._store "k"⟩) ∧
    ((InMemoryCache.empty.set "a" (7 : Nat) 0 0).get "a" 1).1 = none ∧
    ((InMemoryCache.empty.set "b" (9 : Nat) (-3) 4).get "b" 4).1 = none := by
  refine ⟨?_, ?_, ?_⟩
  · exact (@C1_strict_expiry Nat).1 (InMemoryCache.empty.set "k" 5 0 0) "k" 1
      ⟨5, 0⟩ (by decide) (by decide)
  · exact (@C1_strict_expiry Nat).2.1 InMemoryCache.empty "a" 7 0 0 1 (by decide) (by decide)
  · exact (@C1_strict_expiry Nat).2.2 InMemoryCache.empty "b" 9 (-3) 4 (by decide)

/-- Claim C3: a get on the empty store, and more generally a get for any key
with no stored record, misses; and immediately after set with ttl 60 a get
for the same key returns exactly the value stored. -/
theorem C3_miss_then_hit {α : Type} :
    (∀ (k : String) (now : Int), ((InMemoryCache.empty (α := α)).get k now).1 = none) ∧
    (∀ (c : InMemoryCache α) (k : String) (now : Int),
        dictGet c._store k = none → (c.get k now).1 = none) ∧
    (∀ (c : InMemoryCache α) (k : String) (v : α) (now : Int),
        ((c.set k v 60 now).get k now).1 = some v) := by
  refine ⟨fun k now => rfl, ?_, ?_⟩
  · intro c k now h
    simp [InMemoryCache.get, h]
  · intro c k v now
    have hlook := dictGet_dictSet_self c._store k (⟨v, now + 60⟩ : CacheRecord α)
    simp only [InMemoryCache.get, InMemoryCache.set, hlook]
    rw [if_neg (show ¬ (⟨v, now + 60⟩ : CacheRecord α).expires_at < now by simp only []; omega)]

/-- Witness for C3_miss_then_hit: the hypothesis carrying conjunct applied
to the empty store, where the lookup is none. -/
theorem C3_miss_then_hit_witness :
    ((InMemoryCache.empty : InMemoryCache Nat).get "nope" 12).1 = none :=
  (@C3_miss_then_hit Nat).2.1 InMemoryCache.empty "nope" 12 (by decide)

/-- Claim C4: after set with ttl 1 at time t, a get at any time strictly
past t + 1 misses, and that same get removes exactly one entry from the
mapping: lazy eviction. -/
theorem C4_lazy_eviction {α : Type} :
    ∀ (c : InMemoryCache α) (k : String) (v : α) (t t2 : Int), t + 1 < t2 →
      ((c.set k v 1 t).get k t2).1 = none ∧
      ((c.set k v 1 t).get k t2).2._store.length + 1 = (c.set k v 1 t)._store.length := by
  intro c k v t t2 h
  have hlook := dictGet_dictSet_self c._store k (⟨v, t + 1⟩ : CacheRecord α)
  have hdel : (c.set k v 1 t).get k t2 =
      (none, ⟨dictDel (c.set k v 1 t)._store k⟩) := by
    simp only [InMemoryCache.get, InMemoryCache.set, hlook]
    rw [if_pos (show (⟨v, t + 1⟩ : CacheRecord α).expires_at < t2 by simp only []; omega)]
  refine ⟨by rw [hdel], ?_⟩
  rw [hdel]
  exact length_dictDel _ _ _ hlook

/-- Witness for C4_lazy_eviction: one record stored at time 0 with ttl 1 and
read at time 2; the read misses and the store shrinks from one entry to
none. -/
theorem C4_lazy_eviction_witness :
    ((InMemoryCache.empty.set "k" (1 : Nat) 1 0).get "k" 2).1 = none ∧
    ((InMemoryCache.empty.set "k" (1 : Nat) 1 0).get "k" 2).2._store.length + 1 =
      (InMemoryCache.empty.set "k" (1 : Nat) 1 0)._store.length :=
  C4_lazy_eviction InMemoryCache.empty "k" 1 0 2 (by decide)

/-- Claim C5: set unconditionally replaces the full record for its key.
After two sets for the same key the stored record is exactly the second
record, an immediate get returns the second value, and a get at any time
returns either the second value or a miss, never the first value. -/
theorem C5_overwrite {α : Type} :
    ∀ (c : InMemoryCache α) (k : String) (v1 v2 : α) (t1 t2 : Int),
      dictGet ((c.set k v1 60 t1).set k v2 60 t2)._store k =
        some (⟨v2, t2 + 60⟩ : CacheRecord α) ∧
      (((c.set k v1 60 t1).set k v2 60 t2).get k t2).1 = some v2 ∧
      ∀ now : Int,
        (((c.set k v1 60 t1).set k v2 60 t2).get k now).1 = some v2 ∨
        (((c.set k v1 60 t1).set k v2 60 t2).get k now).1 = none := by
  intro c k v1 v2 t1 t2
  have hlook : dictGet ((c.set k v1 60 t1).set k v2 60 t2)._store k =
      some (⟨v2, t2 + 60⟩ : CacheRecord α) :=
    dictGet_dictSet_self _ _ _
  refine ⟨hlook, ?_, ?_⟩
  · simp only [InMemoryCache.get, hlook]
    rw [if_neg (show ¬ (⟨v2, t2 + 60⟩ : CacheRecord α).expires_at < t2 by simp only []; omega)]
  · intro now
    simp only [InMemoryCache.get, hlook]
    by_cases h : (⟨v2, t2 + 60⟩ : CacheRecord α).expires_at < now
    · rw [if_pos h]
      exact Or.inr rfl
    · rw [if_neg h]
      exact Or.inl rfl

/-- Claim C6: make_key is a pure deterministic function, its output carries
the fixed namespace tag classify: as a prefix, and it distinguishes hello
from Hello because SHA-256 hashes the exact bytes of the text. -/
theorem C6_make_key_deterministic :
    (∀ text : String, make_key text = make_key text) ∧
    (∀ text : String, ∃ digest : String, make_key text = "classify:" ++ digest) ∧
    make_key "hello" ≠ make_key "Hello" := by
  refine ⟨fun _ => rfl, fun text => ⟨sha256hex text, rfl⟩, ?_⟩
  decide

/-- Claim C9: get and set only touch their own key. Lookups at any other key
are unchanged by both operations, and the only mutation a get can make to
the store is deleting its own key. -/
theorem C9_key_isolation {α : Type} :
    ∀ (c : InMemoryCache α) (k k2 : String) (v : α) (ttl now : Int), k ≠ k2 →
      dictGet ((c.set k v ttl now))._store k2 = dictGet c._store k2 ∧
      dictGet ((c.get k now).2)._store k2 = dictGet c._store k2 ∧
      ((c.get k now).2 = c ∨ (c.get k now).2 = ⟨dictDel c._store k⟩) := by
  intro c k k2 v ttl now hne
  refine ⟨dictGet_dictSet_ne _ _ _ _ hne, ?_, get_store_cases c k now⟩
  rcases get_store_cases c k now with he | he
  · rw [he]
  · rw [he]
    exact dictGet_dictDel_ne _ _ _ hne

/-- Witness for C9_key_isolation: with the keys a and b stored, a set of b
leaves the lookup of a unchanged. -/
theorem C9_key_isolation_witness :
    dictGet ((InMemoryCache.empty.set "a" (1 : Nat) 3600 0).set "b" 2 3600 0)._store "a" =
      dictGet (InMemoryCache.empty.set "a" (1 : Nat) 3600 0)._store "a" :=
  (C9_key_isolation (InMemoryCache.empty.set "a" 1 3600 0) "b" "a" 2 3600 0
    (by decide)).1

/-- Claim C2 is violated by the source: get returns the stored object itself,
rec value at main.py line 65, not a defensive copy or immutable view. In the
reference and heap reading of Python values, the store holds reference 0
under key k; the first get hands that very reference back; a write through
it replaces the payload; and a second get returns the same reference again,
which now dereferences to the mutated payload rather than the original one,
so mutating the object returned by get changes what a subsequent get
observes. -/
theorem C2_no_defensive_copy :
    ((InMemoryCache.empty.set "k" (0 : Ref) 3600 0).get "k" 0).1 = some 0 ∧
    (((InMemoryCache.empty.set "k" (0 : Ref) 3600 0).get "k" 0).2.get "k" 0).1 = some 0 ∧
    heapWrite (fun _ => [(⟨"POSITIVE", (1 : Rat)⟩ : LabelScore)]) 0
      ([] : List LabelScore) 0 = [] ∧
    (fun _ => [(⟨"POSITIVE", (1 : Rat)⟩ : LabelScore)] : Heap (List LabelScore)) 0 ≠ [] := by
  refine ⟨by decide, by decide, by decide, ?_⟩
  decide

theorem classifyMiss_store_cases (c1 : InMemoryCache CachedResult) (key : String)
    (now : Int) (pr : ProviderOutcome) (sf : Bool) :
    (classifyMiss c1 key now pr sf).2 = c1 ∨
    ∃ (l : LabelScore) (ls : List LabelScore),
      (classifyMiss c1 key now pr sf).2 = c1.set key ⟨l :: ls, PROVIDER⟩ CACHE_TTL now := by
  cases pr with
  | timeoutError => exact Or.inl rfl
  | httpError => exact Or.inl rfl
  | otherError => exact Or.inl rfl
  | ok raw =>
    cases hn : normalize raw with
    | none =>
      left
      simp [classifyMiss, hn]
    | some final =>
      cases final with
      | nil =>
        left
        simp [classifyMiss, hn]
      | cons l ls =>
        cases sf with
        | true =>
          left
          simp [classifyMiss, hn]
        | false =>
          right
          exact ⟨l, ls, by simp [classifyMiss, hn]⟩

theorem classify_store_cases (c : InMemoryCache CachedResult) (now : Int) (text : String)
    (pr : ProviderOutcome) (sf : Bool) :
    (classify c now text pr sf).2 = (c.get (make_key text) now).2 ∨
    ∃ (l : LabelScore) (ls : List LabelScore),
      (classify c now text pr sf).2 =
        ((c.get (make_key text) now).2).set (make_key text) ⟨l :: ls, PROVIDER⟩ CACHE_TTL now := by
  unfold classify
  rcases hg : c.get (make_key text) now with ⟨res, c1⟩
  cases res with
  | some cached => exact Or.inl rfl
  | none => exact classifyMiss_store_cases c1 (make_key text) now pr sf

/-- Claim C7: when the key is not already cached, the provider call succeeds
and normalization yields a nonempty label list, a failing cache.set does not
fail the request: classify still answers with the freshly computed labels
and from_cache false, because the source wraps the write in try and except
and merely logs the failure (main.py lines 159 to 162). -/
theorem C7_cache_write_best_effort :
    ∀ (c : InMemoryCache CachedResult) (now : Int) (text : String) (raw : Json)
      (l : LabelScore) (ls : List LabelScore),
      (c.get (make_key text) now).1 = none →
      normalize raw = some (l :: ls) →
      (classify c now text (.ok raw) true).1 = .ok (l :: ls) false PROVIDER := by
  intro c now text raw l ls hmiss hnorm
  unfold classify
  rcases hg : c.get (make_key text) now with ⟨res, c1⟩
  rw [hg] at hmiss
  simp only [] at hmiss
  subst hmiss
  show (classifyMiss c1 (make_key text) now (.ok raw) true).1 = _
  simp [classifyMiss, hnorm]

/-- Witness for C7_cache_write_best_effort: on the empty store, a provider
body carrying one POSITIVE label and a raising cache write, the request
still succeeds with the fresh labels. -/
theorem C7_cache_write_best_effort_witness :
    (classify InMemoryCache.empty 0 "x"
      (.ok (.arr [.obj [("label", .str "POSITIVE"), ("score", .num ((1 : Rat)))]]))
      true).1 =
      .ok [⟨"POSITIVE", (1 : Rat)⟩] false PROVIDER :=
  C7_cache_write_best_effort InMemoryCache.empty 0 "x"
    (.arr [.obj [("label", .str "POSITIVE"), ("score", .num ((1 : Rat)))]])
    ⟨"POSITIVE", (1 : Rat)⟩ [] rfl (by decide)

/-- Claim C10 overstates normalize: it does not always return a list. On a
malformed item that carries both keys but whose score value is null, the
float builtin raises a TypeError which escapes normalize, modelled here as
the none result, instead of the function returning the empty list. -/
theorem C10_counterexample :
    normalize (.arr [.obj [("label", .str "x"), ("score", .null)]]) = none := by
  decide

/-- Claim C10 amended: every record classify writes to the cache has a
nonempty labels list, each element a string label with a float score by the
type of the entries normalize builds; when normalize returns the empty list,
classify answers 502 and writes nothing; but for malformed input normalize
either returns the empty list or, when an item score is not convertible to
float, raises instead of returning. -/
theorem C10_cache_write_invariant :
    (∀ (c : InMemoryCache CachedResult) (now : Int) (text : String)
        (pr : ProviderOutcome) (sf : Bool) (k : String) (r : CacheRecord CachedResult),
        nodupKeys c._store →
        dictGet (classify c now text pr sf).2._store k = some r →
        dictGet c._store k = some r ∨ r.value.labels ≠ []) ∧
    (∀ (c : InMemoryCache CachedResult) (now : Int) (text : String) (raw : Json) (sf : Bool),
        (c.get (make_key text) now).1 = none → normalize raw = some [] →
        classify c now text (.ok raw) sf =
          (.http 502 "Invalid response format from ML provider",
           (c.get (make_key text) now).2)) := by
  constructor
  · intro c now text pr sf k r hnd h
    rcases classify_store_cases c now text pr sf with hs | ⟨l, ls, hs⟩
    · rw [hs] at h
      exact Or.inl (dictGet_get_state c (make_key text) k now r hnd h)
    · rw [hs] at h
      by_cases hk : make_key text = k
      · subst hk
        rw [show ((c.get (make_key text) now).2.set (make_key text)
              ⟨l :: ls, PROVIDER⟩ CACHE_TTL now)._store =
            dictSet ((c.get (make_key text) now).2)._store (make_key text)
              ⟨⟨l :: ls, PROVIDER⟩, now + CACHE_TTL⟩ from rfl,
          dictGet_dictSet_self] at h
        refine Or.inr ?_
        cases h
        simp
      · rw [show ((c.get (make_key text) now).2.set (make_key text)
              ⟨l :: ls, PROVIDER⟩ CACHE_TTL now)._store =
            dictSet ((c.get (make_key text) now).2)._store (make_key text)
              ⟨⟨l :: ls, PROVIDER⟩, now + CACHE_TTL⟩ from rfl,
          dictGet_dictSet_ne _ _ _ _ hk] at h
        exact Or.inl (dictGet_get_state c (make_key text) k now r hnd h)
  · intro c now text raw sf hmiss hnorm
    unfold classify
    rcases hg : c.get (make_key text) now with ⟨res, c1⟩
    rw [hg] at hmiss
    simp only [] at hmiss
    subst hmiss
    show (classifyMiss c1 (make_key text) now (.ok raw) sf) = _
    simp [classifyMiss, hnorm, hg]

/-- Witness for C10_cache_write_invariant: on the empty store a successful
request writes the one fresh record, whose labels list is nonempty; and a
provider body of null normalizes to the empty list, so the request is
rejected with 502 and the store is left as the miss left it. -/
theorem C10_cache_write_invariant_witness :
    (dictGet (InMemoryCache.empty : InMemoryCache CachedResult)._store (make_key "x") =
        some ⟨⟨[⟨"POSITIVE", (1 : Rat)⟩], "mock"⟩, 3600⟩ ∨
      (⟨⟨[⟨"POSITIVE", (1 : Rat)⟩], "mock"⟩, 3600⟩ :
        CacheRecord CachedResult).value.labels ≠ []) ∧
    classify InMemoryCache.empty 0 "y" (.ok .null) false =
      (.http 502 "Invalid response format from ML provider",
       (InMemoryCache.empty.get (make_key "y") 0).2) := by
  constructor
  · exact C10_cache_write_invariant.1 InMemoryCache.empty 0 "x"
      (.ok (.arr [.obj [("label", .str "POSITIVE"), ("score", .num ((1 : Rat)))]]))
      false (make_key "x") ⟨⟨[⟨"POSITIVE", (1 : Rat)⟩], "mock"⟩, 3600⟩
      (by simp [nodupKeys, InMemoryCache.empty]) (by decide)
  · exact C10_cache_write_invariant.2 InMemoryCache.empty 0 "y" .null false rfl (by decide)

end MLClassifier
